import Mathlib

/-!
Shallow embedding of the FT260 WebHID I2C/PMBus bridge (src/app.js).

The relevant parts of the program are pure data transformations plus one
mutable cell, the pending-read tracker.  We model:

* the numeric protocol constants (src/app.js lines 12-27);
* the outbound write report id formula i2cDataReportId (lines 47-51);
* the pending-read tracker: the global pendingRead cell (line 56),
  clearPendingRead (lines 58-64), and the feed section of onInputReport
  (lines 67-94), as explicit state passing over an Option-typed state;
* the outbound operations i2cWrite (lines 230-246) and i2cRead
  (lines 248-269), which return the error or the list of channel actions
  they perform together with the new tracker state;
* the status decoder parseI2cStatus (lines 196-212);
* the PMBus composition pmbusReadWord (lines 272-291), parameterised by
  the bytes the awaited read resolves with and the raw status block the
  status query returns.

JavaScript numbers holding byte values are modelled as Nat; the one place
where the code can produce a negative value, the report id for a length-0
payload via Math.floor((0-1)/4), is modelled with Int and floor division.
-/

namespace FT260

/-- Output report id for an I2C read request (src/app.js line 12). -/
def FT260_I2C_READ_REQ : Nat := 0xC2

/-- Base report id for outbound I2C write data (src/app.js line 13). -/
def FT260_I2C_REPORT_MIN : Int := 0xD0

/-- Condition flag: START only (src/app.js line 21). -/
def FT260_FLAG_START : Nat := 0x02

/-- Condition flag: START and STOP (src/app.js line 22). -/
def FT260_FLAG_START_STOP : Nat := 0x06

/-- Condition flag: repeated START and STOP (src/app.js line 23). -/
def FT260_FLAG_START_STOP_REPEATED : Nat := 0x07

/-- Maximum single-report write payload (src/app.js line 26). -/
def FT260_WR_DATA_MAX : Nat := 60

/-- Maximum single read length (src/app.js line 27). -/
def FT260_RD_DATA_MAX : Nat := 60

/-- Report id for an outbound I2C data report, from the payload length
(src/app.js lines 47-51): FT260_I2C_REPORT_MIN + Math.floor((len-1)/4).
JavaScript Math.floor on a quotient of integers is floor division, so the
embedding uses Int.fdiv; for payloadLen = 0 the result is 0xCF. -/
def i2cDataReportId (payloadLen : Int) : Int :=
  FT260_I2C_REPORT_MIN + (payloadLen - 1).fdiv 4

/-- The pendingRead record (src/app.js line 56): the requested length and
the bytes accumulated so far.  The resolve/reject callbacks and the timer
id are modelled by the Resolution events the operations emit. -/
structure PendingRead where
  want : Nat
  buf : List Nat
  deriving DecidableEq, Repr

/-- A resolution event on the completion channel of one pending read:
either pr.resolve with the delivered bytes or pr.reject with an error
message. -/
inductive Resolution where
  | fulfilled (bytes : List Nat)
  | rejected (msg : String)
  deriving DecidableEq, Repr

/-- The global pendingRead cell (src/app.js line 56): none when idle. -/
abbrev TrackerState := Option PendingRead

/-- The function clearPendingRead (src/app.js lines 58-64): if no read is
pending it does nothing; otherwise it clears the cell, cancels the timer,
and rejects the completion channel when an error is supplied. -/
def clearPendingRead (err : Option String) (s : TrackerState) :
    TrackerState × List Resolution :=
  match s with
  | none => (none, [])
  | some _ =>
      (none, match err with
             | some e => [Resolution.rejected e]
             | none => [])

/-- The pendingRead section of onInputReport (src/app.js lines 78-93),
applied to an already decoded chunk: append at most want - buf.length
bytes of the chunk, and when the accumulated length reaches want, clear
the cell and resolve with the first want accumulated bytes. -/
def feedChunk (chunk : List Nat) (s : TrackerState) :
    TrackerState × List Resolution :=
  match s with
  | none => (none, [])
  | some pr =>
      let remaining := pr.want - pr.buf.length
      let tk := chunk.take (min remaining chunk.length)
      let merged := pr.buf ++ tk
      if merged.length ≥ pr.want then
        (none, [Resolution.fulfilled (merged.take pr.want)])
      else
        (some { pr with buf := merged }, [])

/-- The input report handler onInputReport (src/app.js lines 67-94).
The raw report is byte 0, a length prefix, followed by the payload; the
chunk is the following min(prefix, byteLength - 1) bytes.  On an empty
report dv.getUint8(0) throws, modelled as none.  The reportId parameter
is logged but otherwise unused by the handler. -/
def onInputReport (reportId : Nat) (raw : List Nat) (s : TrackerState) :
    Option (TrackerState × List Resolution) :=
  match raw with
  | [] => none
  | l0 :: rest => some (feedChunk (rest.take (min l0 rest.length)) s)

/-- Events that can hit the armed tracker during one arm cycle: an input
report chunk being fed, or the timeout callback firing (src/app.js lines
263-265), which calls clearPendingRead with a timeout error. -/
inductive TrackerOp where
  | feed (chunk : List Nat)
  | expire
  deriving DecidableEq, Repr

/-- One event applied to the tracker state. -/
def stepOp (op : TrackerOp) (s : TrackerState) :
    TrackerState × List Resolution :=
  match op with
  | TrackerOp.feed chunk => feedChunk chunk s
  | TrackerOp.expire =>
      clearPendingRead (some "Read timeout waiting for input report(s).") s

/-- A sequence of tracker events, collecting every resolution emitted. -/
def runOps (ops : List TrackerOp) (s : TrackerState) :
    TrackerState × List Resolution :=
  match ops with
  | [] => (s, [])
  | op :: rest =>
      let p1 := stepOp op s
      let p2 := runOps rest p1.1
      (p2.1, p1.2 ++ p2.2)

/-- An observable action performed on the opaque HID channel. -/
inductive Action where
  | sendReport (reportId : Int) (payload : List Nat)
  | armTracker (want : Nat)
  | getFeature (reportId : Nat)
  deriving DecidableEq, Repr

/-- True for the tracker-arming step of a trace. -/
def Action.isArm : Action → Bool
  | Action.armTracker _ => true
  | _ => false

/-- True for the outbound read-request report of a trace. -/
def Action.isReadReq : Action → Bool
  | Action.sendReport rid _ => rid == 0xC2
  | _ => false

/-- Whether the first tracker-arming step of a trace comes strictly
before the first read-request report. -/
def armsBeforeReadReq (acts : List Action) : Bool :=
  acts.findIdx Action.isArm < acts.findIdx Action.isReadReq

/-- The function i2cWrite (src/app.js lines 230-246): requires a device,
rejects payloads over 60 bytes before anything is sent, and otherwise
sends one output report whose id comes from i2cDataReportId and whose
payload is [addr7 and 0x7F, flag and 0xFF, length and 0xFF] followed by
the data bytes (Uint8Array storage truncates each to a byte). -/
def i2cWrite (connected : Bool) (addr7 : Nat) (bytes : List Nat)
    (flag : Nat) : Except String (Int × List Nat) :=
  if ¬ connected then Except.error "Not connected."
  else if bytes.length > FT260_WR_DATA_MAX then
    Except.error "Write > 60 bytes not supported in this demo."
  else
    let reportId := i2cDataReportId bytes.length
    let payload :=
      [addr7 &&& 0x7F, flag &&& 0xFF, bytes.length &&& 0xFF] ++
        bytes.map (fun b => b % 256)
    Except.ok (reportId, payload)

/-- The function i2cRead (src/app.js lines 248-269): requires a device,
requires length at most 60, fails when a read is already pending leaving
that read untouched, and otherwise sends the read request report 0xC2
with payload [addr7 and 0x7F, flag and 0xFF, len low byte, len high
byte] and only afterwards stores the new pendingRead record (line 267).
The second component is the tracker state after the call. -/
def i2cRead (connected : Bool) (addr7 leng flag : Nat) (s : TrackerState) :
    Except String (List Action) × TrackerState :=
  if ¬ connected then (Except.error "Not connected.", s)
  else if leng > FT260_RD_DATA_MAX then
    (Except.error "Read length must be 0–60 in this demo.", s)
  else
    match s with
    | some pr => (Except.error "Another read is already pending.", some pr)
    | none =>
        let req := [addr7 &&& 0x7F, flag &&& 0xFF, leng &&& 0xFF,
                    (leng >>> 8) &&& 0xFF]
        (Except.ok [Action.sendReport (FT260_I2C_READ_REQ : Nat) req,
                    Action.armTracker leng],
         some { want := leng, buf := [] })

/-- The decoded bus status record built by parseI2cStatus
(src/app.js lines 196-212). -/
structure I2cStatus where
  rawStatus : Nat
  speedKhz : Nat
  controllerBusy : Bool
  error : Bool
  addrNack : Bool
  dataNack : Bool
  arbLost : Bool
  idle : Bool
  busBusy : Bool
  deriving DecidableEq, Repr

/-- The function parseI2cStatus (src/app.js lines 196-212): byte 1 is the
status bitmask, bytes 2 and 3 the little-endian bus speed in kHz; missing
bytes default to zero, so the decoder is total. -/
def parseI2cStatus (bytes : List Nat) : I2cStatus :=
  let status := bytes.getD 1 0
  let speedKhz := ((bytes.getD 3 0) <<< 8) ||| (bytes.getD 2 0)
  { rawStatus := status
    speedKhz := speedKhz
    controllerBusy := (status &&& (1 <<< 0)) != 0
    error := (status &&& (1 <<< 1)) != 0
    addrNack := (status &&& (1 <<< 2)) != 0
    dataNack := (status &&& (1 <<< 3)) != 0
    arbLost := (status &&& (1 <<< 4)) != 0
    idle := (status &&& (1 <<< 5)) != 0
    busBusy := (status &&& (1 <<< 6)) != 0 }

/-- Result record of pmbusReadWord (src/app.js line 290). -/
structure PmbusResult where
  raw : List Nat
  word : Nat
  deriving DecidableEq, Repr

/-- The function pmbusReadWord (src/app.js lines 272-291): write the one
command byte with START framing, issue a 2-byte read with repeated
START-STOP framing, query and decode the bus status (logged, never
raised as an error), and return the raw bytes with the little-endian
word raw[0] bitor (raw[1] shifted left 8).  readData stands for the
bytes the awaited read resolves with through the completion channel, and
statusBytes for the raw status feature report; the trace lists the
channel actions in program order. -/
def pmbusReadWord (connected : Bool) (addr7 command : Nat)
    (readData : List Nat) (statusBytes : List Nat) (s : TrackerState) :
    Except String (List Action × I2cStatus × PmbusResult) :=
  match i2cWrite connected addr7 [command &&& 0xFF] FT260_FLAG_START with
  | Except.error e => Except.error e
  | Except.ok wr =>
      match (i2cRead connected addr7 2 FT260_FLAG_START_STOP_REPEATED s).1 with
      | Except.error e => Except.error e
      | Except.ok racts =>
          let st := parseI2cStatus statusBytes
          let word := readData.getD 0 0 ||| ((readData.getD 1 0) <<< 8)
          Except.ok (Action.sendReport wr.1 wr.2 ::
                       (racts ++ [Action.getFeature 0xC0]),
                     st,
                     { raw := readData, word := word })

/-! Helper lemmas shared by the claim theorems. -/

/-- Disjoint or: a value shifted left by k bits or-ed with a value below
2 to the k is their sum. -/
lemma mul_two_pow_lor (k : Nat) : ∀ hi lo : Nat, lo < 2 ^ k →
    (hi * 2 ^ k) ||| lo = hi * 2 ^ k + lo := by
  induction k with
  | zero =>
      intro hi lo h
      have hlo : lo = 0 := by omega
      subst hlo
      simp
  | succ k ih =>
      intro hi lo h
      have hbit : Nat.bit (lo.testBit 0) (lo >>> 1) = lo :=
        Nat.bit_testBit_zero_shiftRight_one lo
      have h1 : hi * 2 ^ (k + 1) = Nat.bit false (hi * 2 ^ k) := by
        rw [Nat.bit_val]
        simp [Nat.pow_succ]
        ring
      have hlt : lo >>> 1 < 2 ^ k := by
        have hs : lo >>> 1 = lo / 2 := Nat.shiftRight_one lo
        have hp : 2 ^ (k + 1) = 2 ^ k * 2 := Nat.pow_succ 2 k
        omega
      rw [← hbit, h1, Nat.lor_bit, ih hi (lo >>> 1) hlt]
      cases hb : lo.testBit 0 <;> simp [Nat.bit_val] <;> ring

/-- The JavaScript truthiness test on a masked bit is the bit test. -/
lemma and_one_shift_bne (n k : Nat) : ((n &&& (1 <<< k)) != 0) = n.testBit k := by
  rw [Nat.one_shiftLeft, Nat.and_two_pow]
  cases h : n.testBit k with
  | false => simp
  | true => simp [(Nat.two_pow_pos k).ne']

/-- Masking a byte-sized value with 0xFF is the identity. -/
lemma and_255_of_lt (n : Nat) (h : n < 256) : n &&& 0xFF = n := by
  have h2 := Nat.and_pow_two_sub_one_eq_mod n 8
  norm_num at h2
  omega

/-- Indexing with a zero default stays below 256 on a list of bytes. -/
lemma getD_lt_of_forall (bytes : List Nat) (hb : ∀ b ∈ bytes, b < 256) (i : Nat) :
    bytes.getD i 0 < 256 := by
  by_cases h : i < bytes.length
  · rw [List.getD_eq_getElem bytes 0 h]
    exact hb _ (List.getElem_mem h)
  · rw [List.getD_eq_default]
    · omega
    · omega

/-- Taking min n length elements is the same as taking n. -/
lemma take_min_length {α : Type} (l : List α) (n : Nat) :
    l.take (min n l.length) = l.take n := by
  rcases le_total n l.length with h | h
  · rw [min_eq_left h]
  · rw [min_eq_right h, List.take_length, List.take_of_length_le h]

/-! Claim theorems. -/

/-- C6: the outbound write report id equals 0xD0 plus the floor of
(len - 1) / 4 for every payload length; in particular lengths 1 and 4
map to 0xD0, length 5 to 0xD1 and length 60 to 0xDE. -/
theorem i2cDataReportId_formula :
    i2cDataReportId 1 = 0xD0 ∧ i2cDataReportId 4 = 0xD0 ∧
    i2cDataReportId 5 = 0xD1 ∧ i2cDataReportId 60 = 0xDE ∧
    ∀ len : Int, i2cDataReportId len = 0xD0 + (len - 1).fdiv 4 :=
  ⟨by decide, by decide, by decide, by decide, fun len => rfl⟩

/-- C10: a zero-length write passes the length check and is encoded with
report id 0xD0 + floor(-1/4) = 0xCF, which lies strictly below the
0xD0-0xDE outbound write-data report range. -/
theorem i2cWrite_zero_length (addr flag : Nat) :
    i2cWrite true addr [] flag =
      Except.ok (0xCF, [addr &&& 0x7F, flag &&& 0xFF, 0]) ∧
    i2cDataReportId 0 = 0xCF ∧
    i2cDataReportId 0 < FT260_I2C_REPORT_MIN := by
  refine ⟨?_, by decide, by decide⟩
  simp [i2cWrite, FT260_WR_DATA_MAX, i2cDataReportId, FT260_I2C_REPORT_MIN]

/-- C5: for data of length at most 60 the encoded write payload is
[addr masked to 7 bits, flag, data length] followed by the data bytes,
hence has length 3 + len(data) with byte 2 equal to len(data); for data
longer than 60 bytes i2cWrite fails and nothing is sent. -/
theorem i2cWrite_encoding (addr flag : Nat) (data : List Nat)
    (hf : flag < 256) (hd : ∀ b ∈ data, b < 256) :
    (data.length ≤ 60 →
      i2cWrite true addr data flag =
        Except.ok (i2cDataReportId data.length,
          [addr &&& 0x7F, flag, data.length] ++ data) ∧
      ([addr &&& 0x7F, flag, data.length] ++ data).length = 3 + data.length ∧
      ([addr &&& 0x7F, flag, data.length] ++ data).getD 2 0 = data.length) ∧
    (data.length > 60 →
      i2cWrite true addr data flag =
        Except.error "Write > 60 bytes not supported in this demo.") := by
  constructor
  · intro hlen
    refine ⟨?_, by simp; omega, by simp⟩
    have hmap : data.map (fun b => b % 256) = data := by
      conv_rhs => rw [← List.map_id data]
      exact List.map_congr_left fun b hb => Nat.mod_eq_of_lt (hd b hb)
    simp [i2cWrite, FT260_WR_DATA_MAX, Nat.not_lt.mpr hlen, hmap,
      and_255_of_lt flag hf, and_255_of_lt data.length (by omega)]
  · intro hlen
    simp [i2cWrite, FT260_WR_DATA_MAX, hlen]

/-- Witness for C5 at a concrete input. -/
theorem i2cWrite_encoding_witness :
    i2cWrite true 0x5A [0xAB] 0x06 =
      Except.ok (0xD0, [0x5A, 0x06, 1, 0xAB]) := by
  have h := ((i2cWrite_encoding 0x5A 0x06 [0xAB] (by decide)
    (by decide)).1 (by decide)).1
  simpa using h

/-- C7: the status decoder is total over byte lists (missing bytes read
as zero), maps bits 0 to 6 of byte 1 to busy, error, addrNack, dataNack,
arbLost, idle and busBusy, and reads bytes 2 and 3 as the little-endian
clock speed in kHz; decoding [0xC0, 0b00000101, 0x90, 0x01] yields
addrNack true, busy true and speed 400 kHz. -/
theorem parseI2cStatus_spec (bytes : List Nat) (hb : ∀ b ∈ bytes, b < 256) :
    (parseI2cStatus bytes).controllerBusy = (bytes.getD 1 0).testBit 0 ∧
    (parseI2cStatus bytes).error = (bytes.getD 1 0).testBit 1 ∧
    (parseI2cStatus bytes).addrNack = (bytes.getD 1 0).testBit 2 ∧
    (parseI2cStatus bytes).dataNack = (bytes.getD 1 0).testBit 3 ∧
    (parseI2cStatus bytes).arbLost = (bytes.getD 1 0).testBit 4 ∧
    (parseI2cStatus bytes).idle = (bytes.getD 1 0).testBit 5 ∧
    (parseI2cStatus bytes).busBusy = (bytes.getD 1 0).testBit 6 ∧
    (parseI2cStatus bytes).speedKhz = bytes.getD 2 0 + 256 * bytes.getD 3 0 ∧
    parseI2cStatus [] =
      { rawStatus := 0, speedKhz := 0, controllerBusy := false, error := false,
        addrNack := false, dataNack := false, arbLost := false, idle := false,
        busBusy := false } ∧
    parseI2cStatus [0xC0, 0b00000101, 0x90, 0x01] =
      { rawStatus := 5, speedKhz := 400, controllerBusy := true, error := false,
        addrNack := true, dataNack := false, arbLost := false, idle := false,
        busBusy := false } := by
  refine ⟨?_, ?_, ?_, ?_, ?_, ?_, ?_, ?_, by decide, by decide⟩
  · exact and_one_shift_bne (bytes.getD 1 0) 0
  · exact and_one_shift_bne (bytes.getD 1 0) 1
  · exact and_one_shift_bne (bytes.getD 1 0) 2
  · exact and_one_shift_bne (bytes.getD 1 0) 3
  · exact and_one_shift_bne (bytes.getD 1 0) 4
  · exact and_one_shift_bne (bytes.getD 1 0) 5
  · exact and_one_shift_bne (bytes.getD 1 0) 6
  · show ((bytes.getD 3 0) <<< 8) ||| (bytes.getD 2 0) =
      bytes.getD 2 0 + 256 * bytes.getD 3 0
    have h2 : bytes.getD 2 0 < 256 := getD_lt_of_forall bytes hb 2
    have hsh : (bytes.getD 3 0) <<< 8 = bytes.getD 3 0 * 2 ^ 8 :=
      Nat.shiftLeft_eq _ 8
    have hp : (2 : Nat) ^ 8 = 256 := by norm_num
    rw [hsh, mul_two_pow_lor 8 (bytes.getD 3 0) (bytes.getD 2 0) (by omega)]
    ring

/-- Witness for C7 at the concrete status block of the claim. -/
theorem parseI2cStatus_spec_witness :
    parseI2cStatus [0xC0, 0b00000101, 0x90, 0x01] =
      { rawStatus := 5, speedKhz := 400, controllerBusy := true, error := false,
        addrNack := true, dataNack := false, arbLost := false, idle := false,
        busBusy := false } :=
  (parseI2cStatus_spec [0xC0, 0b00000101, 0x90, 0x01]
    (by decide)).2.2.2.2.2.2.2.2.2

/-- One event applied to the idle tracker does nothing. -/
lemma stepOp_none (op : TrackerOp) : stepOp op none = (none, []) := by
  cases op <;> rfl

/-- Unfolding one step of runOps. -/
lemma runOps_cons (op : TrackerOp) (rest : List TrackerOp) (s : TrackerState) :
    runOps (op :: rest) s =
      ((runOps rest (stepOp op s).1).1,
       (stepOp op s).2 ++ (runOps rest (stepOp op s).1).2) := rfl

/-- The idle state absorbs every event sequence without resolutions. -/
lemma runOps_none (ops : List TrackerOp) : runOps ops none = (none, []) := by
  induction ops with
  | nil => rfl
  | cons op rest ih =>
      rw [runOps_cons, stepOp_none]
      simp [ih]

/-- From an armed state, one event either clears the cell and emits
exactly one resolution, or keeps it armed and emits none. -/
lemma stepOp_some_cases (op : TrackerOp) (pr : PendingRead) :
    ((stepOp op (some pr)).1 = none ∧ (stepOp op (some pr)).2.length = 1) ∨
    ((stepOp op (some pr)).1 ≠ none ∧ (stepOp op (some pr)).2 = []) := by
  cases op with
  | feed chunk =>
      simp only [stepOp, feedChunk]
      split
      · left
        simp
      · right
        simp
  | expire =>
      left
      simp [stepOp, clearPendingRead]

/-- The number of resolutions a run emits is one exactly when it starts
armed and ends idle, and zero otherwise. -/
lemma runOps_resolution_count (ops : List TrackerOp) :
    ∀ s : TrackerState,
      (runOps ops s).2.length =
        if s ≠ none ∧ (runOps ops s).1 = none then 1 else 0 := by
  induction ops with
  | nil =>
      intro s
      simp [runOps]
  | cons op rest ih =>
      intro s
      rw [runOps_cons]
      match s with
      | none =>
          rw [stepOp_none]
          simp [runOps_none]
      | some pr =>
          rcases stepOp_some_cases op pr with ⟨h1, h2⟩ | ⟨h1, h2⟩
          · rw [h1]
            simp [runOps_none, h2]
          · rw [h2]
            simp only [List.nil_append]
            rw [ih ((stepOp op (some pr)).1)]
            simp [h1]

/-- C2: starting an arm cycle with an empty buffer, any sequence of feed
and timeout-expiry events resolves the completion channel exactly once,
namely when the cycle ends idle; and once the cell is cleared a late
expiry is a no-op that resolves nothing. -/
theorem pendingRead_resolved_exactly_once (ops : List TrackerOp) (want : Nat) :
    ((runOps ops (some { want := want, buf := [] })).2.length =
      if (runOps ops (some { want := want, buf := [] })).1 = none then 1
      else 0) ∧
    stepOp TrackerOp.expire none = (none, []) := by
  refine ⟨?_, rfl⟩
  have h := runOps_resolution_count ops (some { want := want, buf := [] })
  simpa using h

/-- C1: while a read is armed with target want, feeding a chunk appends
at most want - buf.length of its bytes, the excess silently dropped, and
exactly when the accumulated length reaches want the cell is cleared and
the completion channel is resolved with the first want accumulated
bytes; arming with want 5 and feeding [a, b, c] then [d, e] resolves
with [a, b, c, d, e]. -/
theorem feedChunk_reassembly (want : Nat) (buf chunk : List Nat)
    (a b c d e : Nat) (h : buf.length ≤ want) :
    (feedChunk chunk (some { want := want, buf := buf }) =
      if (buf ++ chunk.take (want - buf.length)).length = want then
        (none, [Resolution.fulfilled (buf ++ chunk.take (want - buf.length))])
      else
        (some { want := want, buf := buf ++ chunk.take (want - buf.length) },
         [])) ∧
    runOps [TrackerOp.feed [a, b, c], TrackerOp.feed [d, e]]
        (some { want := 5, buf := [] }) =
      (none, [Resolution.fulfilled [a, b, c, d, e]]) := by
  constructor
  · simp only [feedChunk, take_min_length]
    have hlen : (buf ++ chunk.take (want - buf.length)).length ≤ want := by
      simp
      omega
    split
    next hge =>
      have hc : (buf ++ chunk.take (want - buf.length)).length = want :=
        le_antisymm hlen hge
      rw [if_pos hc, List.take_of_length_le (le_of_eq hc)]
    next hlt =>
      rw [if_neg (by omega)]
  · rfl

/-- Witness for C1 at a concrete partial feed. -/
theorem feedChunk_reassembly_witness :
    feedChunk [1, 2, 3] (some { want := 5, buf := [] }) =
      (some { want := 5, buf := [1, 2, 3] }, []) := by
  have h := (feedChunk_reassembly 5 [] [1, 2, 3] 0 0 0 0 0 (by decide)).1
  simpa using h

/-- C3: with a session active and a valid length, reading while another
read is armed fails with the conflict error and leaves the armed read
untouched, while reading with the tracker idle succeeds and arms it. -/
theorem i2cRead_single_inflight (addr leng flag : Nat) (pr : PendingRead)
    (hlen : leng ≤ 60) :
    i2cRead true addr leng flag (some pr) =
      (Except.error "Another read is already pending.", some pr) ∧
    i2cRead true addr leng flag none =
      (Except.ok [Action.sendReport FT260_I2C_READ_REQ
          [addr &&& 0x7F, flag &&& 0xFF, leng &&& 0xFF, (leng >>> 8) &&& 0xFF],
        Action.armTracker leng],
       some { want := leng, buf := [] }) := by
  constructor <;>
    simp [i2cRead, FT260_RD_DATA_MAX, Nat.not_lt.mpr hlen]

/-- Witness for C3 at a concrete armed read. -/
theorem i2cRead_single_inflight_witness :
    i2cRead true 0x5A 2 0x07 (some { want := 5, buf := [] }) =
      (Except.error "Another read is already pending.",
       some { want := 5, buf := [] }) :=
  (i2cRead_single_inflight 0x5A 2 0x07 { want := 5, buf := [] }
    (by decide)).1

/-- C9 counterexample: at address 0x5A, length 2, flag 0x07 with an
idle tracker, the read-request report goes out as the first action and
the tracker is armed only afterwards, so the tracker is not yet armed
when the request is sent: the claimed arm-before-send order is false. -/
theorem i2cRead_arm_order_counterexample :
    (i2cRead true 0x5A 2 0x07 none).1 =
      Except.ok [Action.sendReport FT260_I2C_READ_REQ [0x5A, 0x07, 0x02, 0x00],
        Action.armTracker 2] ∧
    armsBeforeReadReq
      [Action.sendReport FT260_I2C_READ_REQ [0x5A, 0x07, 0x02, 0x00],
        Action.armTracker 2] = false := by
  constructor
  · rfl
  · rfl

/-- C9 amended: with an active session, an idle tracker and a length of
at most 60, i2cRead first sends the read-request report and only then
arms the pending-read tracker, so the arming step never precedes the
outgoing request. -/
theorem i2cRead_sends_request_then_arms (addr leng flag : Nat)
    (hlen : leng ≤ 60) :
    (i2cRead true addr leng flag none).1 =
      Except.ok [Action.sendReport FT260_I2C_READ_REQ
          [addr &&& 0x7F, flag &&& 0xFF, leng &&& 0xFF, (leng >>> 8) &&& 0xFF],
        Action.armTracker leng] ∧
    (∀ acts, (i2cRead true addr leng flag none).1 = Except.ok acts →
      armsBeforeReadReq acts = false) ∧
    (i2cRead true addr leng flag none).2 = some { want := leng, buf := [] } := by
  have hok : i2cRead true addr leng flag none =
      (Except.ok [Action.sendReport FT260_I2C_READ_REQ
          [addr &&& 0x7F, flag &&& 0xFF, leng &&& 0xFF, (leng >>> 8) &&& 0xFF],
        Action.armTracker leng],
       some { want := leng, buf := [] }) := by
    simp [i2cRead, FT260_RD_DATA_MAX, Nat.not_lt.mpr hlen]
  refine ⟨by rw [hok], ?_, by rw [hok]⟩
  intro acts hacts
  rw [hok] at hacts
  have hacts2 : acts = [Action.sendReport FT260_I2C_READ_REQ
      [addr &&& 0x7F, flag &&& 0xFF, leng &&& 0xFF, (leng >>> 8) &&& 0xFF],
    Action.armTracker leng] := by
    injection hacts.symm
  subst hacts2
  simp [armsBeforeReadReq, Action.isArm, Action.isReadReq, List.findIdx,
    List.findIdx.go, FT260_I2C_READ_REQ]

/-- Witness for C9 amended at a concrete read. -/
theorem i2cRead_sends_request_then_arms_witness :
    (i2cRead true 0x5A 2 0x07 none).2 = some { want := 2, buf := [] } :=
  (i2cRead_sends_request_then_arms 0x5A 2 0x07 (by decide)).2.2

/-- C8 counterexample: report id 0x01 is outside the 0xD0-0xDE inbound
data range, yet with a read armed for 2 bytes the handler feeds its
payload to the tracker and resolves the read, so the claimed filtering
does not exist. -/
theorem onInputReport_no_filter_counterexample :
    ((0x01 : Int) < 0xD0 ∨ (0x01 : Int) > 0xDE) ∧
    onInputReport 0x01 [2, 0xAB, 0xCD] (some { want := 2, buf := [] }) =
      some (none, [Resolution.fulfilled [0xAB, 0xCD]]) ∧
    (some (none, [Resolution.fulfilled [0xAB, 0xCD]]) :
        Option (TrackerState × List Resolution)) ≠
      some (some { want := 2, buf := [] }, []) := by
  refine ⟨Or.inl (by decide), rfl, by decide⟩

/-- C8 amended: the handler logs every report and, whenever a read is
armed, feeds the decoded chunk to the pending-read tracker irrespective
of the report id: its effect does not depend on the report id, and on a
nonempty report it always applies the feed step. -/
theorem onInputReport_ignores_reportId (rid1 rid2 : Nat) (raw : List Nat)
    (s : TrackerState) :
    onInputReport rid1 raw s = onInputReport rid2 raw s ∧
    (∀ l0 rest, onInputReport rid1 (l0 :: rest) s =
      some (feedChunk (rest.take (min l0 rest.length)) s)) :=
  ⟨rfl, fun _ _ => rfl⟩

/-- C4: pmbusReadWord writes exactly the one command byte with START
framing, then requests a 2-byte read with repeated START-STOP framing,
then queries and decodes the bus status without raising an error on any
status value (NACK included), and returns the two raw bytes with the
little-endian word raw[0] + 256 * raw[1]; the input report carrying the
two bytes resolves the armed read with exactly those bytes. -/
theorem pmbusReadWord_spec (addr command d0 d1 : Nat)
    (statusBytes : List Nat) (h0 : d0 < 256) (h1 : d1 < 256) :
    pmbusReadWord true addr command [d0, d1] statusBytes none =
      Except.ok
        ([Action.sendReport 0xD0
            [addr &&& 0x7F, FT260_FLAG_START, 1, command &&& 0xFF],
          Action.sendReport FT260_I2C_READ_REQ
            [addr &&& 0x7F, FT260_FLAG_START_STOP_REPEATED, 2, 0],
          Action.armTracker 2,
          Action.getFeature 0xC0],
         parseI2cStatus statusBytes,
         { raw := [d0, d1], word := d0 + 256 * d1 }) ∧
    (∀ rid, onInputReport rid [2, d0, d1] (some { want := 2, buf := [] }) =
      some (none, [Resolution.fulfilled [d0, d1]])) := by
  constructor
  · have hcmd : (command &&& 0xFF) % 256 = command &&& 0xFF := by
      have h2 := Nat.and_pow_two_sub_one_eq_mod command 8
      norm_num at h2
      omega
    have hword : d0 ||| (d1 <<< 8) = d0 + 256 * d1 := by
      rw [Nat.lor_comm, Nat.shiftLeft_eq]
      have hp : (2 : Nat) ^ 8 = 256 := by norm_num
      rw [mul_two_pow_lor 8 d1 d0 (by omega)]
      ring
    simp [pmbusReadWord, i2cWrite, i2cRead, FT260_WR_DATA_MAX,
      FT260_RD_DATA_MAX, FT260_FLAG_START, FT260_FLAG_START_STOP_REPEATED,
      i2cDataReportId, FT260_I2C_REPORT_MIN, hcmd, hword]
    refine ⟨by decide, by decide, by decide⟩
  · intro rid
    rfl

/-- Witness for C4 at the claim's concrete transaction. -/
theorem pmbusReadWord_spec_witness :
    pmbusReadWord true 0x5A 0x8B [0x34, 0x12] [] none =
      Except.ok
        ([Action.sendReport 0xD0 [0x5A, 0x02, 1, 0x8B],
          Action.sendReport FT260_I2C_READ_REQ [0x5A, 0x07, 2, 0],
          Action.armTracker 2,
          Action.getFeature 0xC0],
         parseI2cStatus [],
         { raw := [0x34, 0x12], word := 0x1234 }) := by
  have h := (pmbusReadWord_spec 0x5A 0x8B 0x34 0x12 [] (by decide)
    (by decide)).1
  simpa using h

end FT260
